import Mathlib

/-!
Shallow embedding of the social-network HTTP service
(`backend/main.py`, schema declared in `init_db` and `backend/models.py`).

Modelling decisions, all traceable to the source:

* The SQLite store is a `DB` value: the three tables as lists of rows in
  insertion (rowid) order, the AUTOINCREMENT counters, and a logical clock.
  `created_at DATETIME DEFAULT CURRENT_TIMESTAMP` is modelled as a logical
  insertion tick: each inserted row stamps the current clock and advances it,
  so later inserts carry strictly larger timestamps.
* A JSON request body is a record of the keys the handlers read.  Each field
  is `Option (Option _)`: the outer `Option` is key presence (Python raises
  `KeyError` on a missing key), the inner one is JSON `null` (inserted as SQL
  NULL).
* SQLite semantics embedded as SQLite actually behaves with this schema:
  `VARCHAR(n)` declarations carry no length enforcement, `NOT NULL` and
  `UNIQUE` raise `sqlite3.IntegrityError` at `execute`, and foreign keys are
  declared but NOT enforced (the code never issues `PRAGMA foreign_keys=ON`).
* A handler response is `Resp`: `ok` (JSON payload), `clientError`
  (an `HTTPException` with status and detail), or `serverFault` (an uncaught
  Python exception propagating out of the handler, an HTTP 500 equivalent;
  nothing uncommitted is persisted).
-/

/-- A row of the `users` table:
`id INTEGER PRIMARY KEY AUTOINCREMENT, username VARCHAR(50) NOT NULL UNIQUE,
role VARCHAR(20) DEFAULT 'user', created_at DATETIME DEFAULT CURRENT_TIMESTAMP`.
`username` is `String` because NOT NULL is enforced at insert; `role` may be
NULL (`none`) since its column has no NOT NULL constraint. -/
structure User where
  id : Nat
  username : String
  role : Option String
  created_at : Nat
deriving DecidableEq, Repr

/-- A row of the `posts` table:
`id INTEGER PRIMARY KEY AUTOINCREMENT, title VARCHAR(100) NOT NULL,
body TEXT NOT NULL, user_id INTEGER NOT NULL, created_at ...,
FOREIGN KEY (user_id) REFERENCES users(id)` (declared, not enforced). -/
structure Post where
  id : Nat
  title : String
  body : String
  user_id : Nat
  created_at : Nat
deriving DecidableEq, Repr

/-- A row of the `follows` table:
`following_user_id INTEGER, followed_user_id INTEGER, created_at ...,
PRIMARY KEY (following_user_id, followed_user_id)`. -/
structure Follow where
  following_user_id : Nat
  followed_user_id : Nat
  created_at : Nat
deriving DecidableEq, Repr

/-- A row of `SELECT p.*, u.username FROM posts p JOIN users u ON p.user_id = u.id`:
a post flattened with its author's username. -/
structure JoinedPost where
  id : Nat
  title : String
  body : String
  user_id : Nat
  created_at : Nat
  username : String
deriving DecidableEq, Repr

/-- The persisted store `social_network.db`: rows of each table in rowid
(insertion) order, the AUTOINCREMENT counters for `users.id` and `posts.id`,
and the logical clock stamping `created_at` of the next inserted row. -/
structure DB where
  users : List User
  posts : List Post
  follows : List Follow
  nextUserId : Nat
  nextPostId : Nat
  clock : Nat
deriving DecidableEq, Repr

/-- Outcome of one request handler, paired by each handler with the store
state after the request. -/
inductive Resp (α : Type) where
  | ok : α → Resp α
  | clientError : Nat → String → Resp α
  | serverFault : Resp α
deriving DecidableEq, Repr

/-- Request body of `POST /users`: the handler reads `user_data['username']`
(KeyError if absent) and `user_data.get('role', 'user')`. -/
structure UserData where
  username : Option (Option String)
  role : Option (Option String)
deriving DecidableEq, Repr

/-- Request body of `POST /posts`: the handler reads `post_data['title']`,
`post_data['body']`, `post_data['user_id']` in that order. -/
structure PostData where
  title : Option (Option String)
  body : Option (Option String)
  user_id : Option (Option Nat)
deriving DecidableEq, Repr

/-- The store created by `init_db` on first run: the
`INSERT INTO users/posts/follows` seed statements of `main.py`, rows stamped
with successive logical ticks; AUTOINCREMENT counters stand at 4. -/
def seedDB : DB :=
  { users :=
      [ { id := 1, username := "juan_dev", role := some "user", created_at := 0 }
      , { id := 2, username := "maria_admin", role := some "admin", created_at := 1 }
      , { id := 3, username := "carlos_student", role := some "user", created_at := 2 } ]
  , posts :=
      [ { id := 1, title := "Mi primer post"
        , body := "Hola mundo desde la API con SQLite!", user_id := 1, created_at := 3 }
      , { id := 2, title := "Segundo post"
        , body := "Este proyecto está genial", user_id := 2, created_at := 4 }
      , { id := 3, title := "Aprendiendo FastAPI"
        , body := "Es más fácil de lo que pensé", user_id := 3, created_at := 5 } ]
  , follows :=
      [ { following_user_id := 1, followed_user_id := 2, created_at := 6 }
      , { following_user_id := 1, followed_user_id := 3, created_at := 7 }
      , { following_user_id := 2, followed_user_id := 3, created_at := 8 } ]
  , nextUserId := 4
  , nextPostId := 4
  , clock := 9 }

/-- `init_db` of `main.py`: `if not os.path.exists('social_network.db')`
create the schema and insert the seed rows, otherwise do nothing.  The
argument models the file system: `none` when no store file exists, `some db`
for an existing store with contents `db`. -/
def init_db : Option DB → DB
  | none => seedDB
  | some db => db

/-- `ORDER BY created_at DESC`: insert `a` into a list already sorted by
descending key, placing `a` before the first strictly smaller key. -/
def insertDesc (key : α → Nat) (a : α) : List α → List α
  | [] => [a]
  | b :: bs => if key b < key a then a :: b :: bs else b :: insertDesc key a bs

/-- Sort by descending key (insertion sort), modelling `ORDER BY ... DESC`. -/
def sortDesc (key : α → Nat) : List α → List α
  | [] => []
  | a :: as => insertDesc key a (sortDesc key as)

/-- `JOIN users u ON p.user_id = u.id` for a single post row: the first user
row whose id matches (unique in any store the system builds), flattened with
`u.username`; `none` when no user matches (the inner join drops the post). -/
def joinRow (users : List User) (p : Post) : Option JoinedPost :=
  (users.find? (fun u => u.id == p.user_id)).map (fun u =>
    { id := p.id, title := p.title, body := p.body, user_id := p.user_id
    , created_at := p.created_at, username := u.username })

/-- `GET /users`: `SELECT * FROM users ORDER BY created_at DESC`. -/
def get_users (db : DB) : Resp (List User) × DB :=
  (Resp.ok (sortDesc (fun u => u.created_at) db.users), db)

/-- The user row `INSERT INTO users (username, role) VALUES (?, ?)` creates:
id from AUTOINCREMENT, `created_at` stamped with the current tick. -/
def freshUser (db : DB) (u : String) (r : Option String) : User :=
  { id := db.nextUserId, username := u, role := r, created_at := db.clock }

/-- Store state after a committed insert into `users`. -/
def insertUser (db : DB) (u : String) (r : Option String) : DB :=
  { db with users := db.users ++ [freshUser db u r]
          , nextUserId := db.nextUserId + 1
          , clock := db.clock + 1 }

/-- `POST /users` (`create_user` of `main.py`).
`user_data['username']` missing raises `KeyError`, uncaught (the `except`
clause catches only `sqlite3.IntegrityError`): `serverFault`, nothing
persisted.  A NULL username violates NOT NULL, a taken username violates
UNIQUE: both surface as `sqlite3.IntegrityError` at `execute`, caught and
answered with `HTTPException(400, "Username already exists")`, nothing
committed.  Otherwise the row is inserted, committed and re-read. -/
def create_user (db : DB) (d : UserData) : Resp User × DB :=
  match d.username with
  | none => (Resp.serverFault, db)
  | some none => (Resp.clientError 400 "Username already exists", db)
  | some (some u) =>
      if db.users.any (fun x => x.username == u) then
        (Resp.clientError 400 "Username already exists", db)
      else
        (Resp.ok (freshUser db u (d.role.getD (some "user")))
        , insertUser db u (d.role.getD (some "user")))

/-- `GET /posts`: `SELECT p.*, u.username FROM posts p JOIN users u ON
p.user_id = u.id ORDER BY p.created_at DESC`.  The inner join keeps exactly
the posts whose `user_id` matches some user row. -/
def get_posts (db : DB) : Resp (List JoinedPost) × DB :=
  (Resp.ok (sortDesc (fun p => p.created_at)
    (db.posts.filterMap (joinRow db.users))), db)

/-- The post row `INSERT INTO posts (title, body, user_id) VALUES (?, ?, ?)`
creates. -/
def freshPost (db : DB) (t b : String) (uid : Nat) : Post :=
  { id := db.nextPostId, title := t, body := b, user_id := uid
  , created_at := db.clock }

/-- Store state after a committed insert into `posts`. -/
def insertPost (db : DB) (t b : String) (uid : Nat) : DB :=
  { db with posts := db.posts ++ [freshPost db t b uid]
          , nextPostId := db.nextPostId + 1
          , clock := db.clock + 1 }

/-- `POST /posts` (`create_post` of `main.py`).
`post_data['title']`, `['body']`, `['user_id']` are read in that order; a
missing key raises `KeyError`, uncaught: `serverFault`, nothing persisted.
A NULL among them violates NOT NULL at `execute`; `create_post` has no
`try`, so the `IntegrityError` propagates with nothing committed.  The
declared foreign key on `user_id` is NOT enforced (SQLite default), so the
insert succeeds and is committed regardless of whether the user exists; the
re-read joins with `users`, and when the author does not exist
`cur.fetchone()` is `None` and `dict(None)` raises after the commit: the
row stays persisted while the request faults. -/
def create_post (db : DB) (d : PostData) : Resp JoinedPost × DB :=
  match d.title with
  | none => (Resp.serverFault, db)
  | some t =>
    match d.body with
    | none => (Resp.serverFault, db)
    | some b =>
      match d.user_id with
      | none => (Resp.serverFault, db)
      | some uid =>
        match t, b, uid with
        | some t, some b, some uid =>
            let db' := insertPost db t b uid
            match joinRow db'.users (freshPost db t b uid) with
            | some jp => (Resp.ok jp, db')
            | none => (Resp.serverFault, db')
        | _, _, _ => (Resp.serverFault, db)

/-- `GET /` health check: fixed payload, no store access. -/
def home (db : DB) : Resp (String × String) × DB :=
  (Resp.ok ("Social Network API is running!", "ok"), db)

/-! ### Lemmas about the descending sort (`ORDER BY created_at DESC`) -/

theorem mem_insertDesc (key : α → Nat) (a x : α) (l : List α) :
    x ∈ insertDesc key a l ↔ x = a ∨ x ∈ l := by
  induction l with
  | nil => simp [insertDesc]
  | cons b bs ih =>
      by_cases h : key b < key a
      · simp [insertDesc, h]
      · simp only [insertDesc, if_neg h, List.mem_cons, ih]
        tauto

theorem mem_sortDesc (key : α → Nat) (x : α) (l : List α) :
    x ∈ sortDesc key l ↔ x ∈ l := by
  induction l with
  | nil => simp [sortDesc]
  | cons a as ih => simp [sortDesc, mem_insertDesc, ih]

theorem insertDesc_eq_append (key : α → Nat) (a : α) (l : List α)
    (h : ∀ b ∈ l, key a < key b) : insertDesc key a l = l ++ [a] := by
  induction l with
  | nil => rfl
  | cons b bs ih =>
      have hb : key a < key b := h b (List.mem_cons_self b bs)
      have hnot : ¬ key b < key a := by omega
      simp only [insertDesc, if_neg hnot, List.cons_append]
      rw [ih (fun c hc => h c (List.mem_cons_of_mem b hc))]

/-- A list inserted in strictly ascending key order is listed back in
reverse by the descending sort. -/
theorem sortDesc_eq_reverse (key : α → Nat) (l : List α)
    (h : l.Pairwise (fun x y => key x < key y)) : sortDesc key l = l.reverse := by
  induction l with
  | nil => rfl
  | cons a as ih =>
      rcases List.pairwise_cons.mp h with ⟨ha, has⟩
      rw [sortDesc, ih has, insertDesc_eq_append, List.reverse_cons]
      intro b hb
      exact ha b (List.mem_reverse.mp hb)

/-! ### Lemmas about the join -/

/-- `find?` on a list of users with pairwise distinct ids returns the member
with the sought id. -/
theorem find?_user_eq_of_mem (l : List User) (uid : Nat) (user : User)
    (hnd : l.Pairwise (fun a b => a.id ≠ b.id))
    (hmem : user ∈ l) (hid : user.id = uid) :
    l.find? (fun u => u.id == uid) = some user := by
  induction l with
  | nil => cases hmem
  | cons x xs ih =>
      rcases List.pairwise_cons.mp hnd with ⟨hx, hxs⟩
      rcases List.mem_cons.mp hmem with rfl | hmem'
      · exact List.find?_cons_of_pos _ (by simp [hid])
      · have hxid : x.id ≠ uid := fun hcontra => hx user hmem' (by rw [hcontra, hid])
        have hne : (x.id == uid) = false := by simp [hxid]
        rw [List.find?_cons]
        simp only [hne]
        exact ih hxs hmem'

theorem joinRow_created_at (users : List User) (p : Post) (jp : JoinedPost)
    (h : joinRow users p = some jp) : jp.created_at = p.created_at := by
  unfold joinRow at h
  rcases hf : users.find? (fun u => u.id == p.user_id) with _ | u
  · rw [hf] at h; cases h
  · rw [hf] at h
    cases Option.some.inj h
    rfl

/-- The inner join keeps strictly ascending post timestamps. -/
theorem pairwise_filterMap_joinRow (users : List User) (posts : List Post)
    (h : posts.Pairwise (fun a b => a.created_at < b.created_at)) :
    (posts.filterMap (joinRow users)).Pairwise
      (fun a b => a.created_at < b.created_at) := by
  induction posts with
  | nil => simp
  | cons p ps ih =>
      rcases List.pairwise_cons.mp h with ⟨hp, hps⟩
      rcases hj : joinRow users p with _ | jp
      · simpa [List.filterMap_cons, hj] using ih hps
      · simp only [List.filterMap_cons, hj]
        refine List.pairwise_cons.mpr ⟨?_, ih hps⟩
        intro y hy
        rcases List.mem_filterMap.mp hy with ⟨q, hq, hjq⟩
        rw [joinRow_created_at users p jp hj, joinRow_created_at users q y hjq]
        exact hp q hq

/-! ### Well-formedness of store states -/

/-- Invariant of every store state the running system builds: `created_at`
ticks strictly increase in insertion order and stay below the clock; user
ids are positive, pairwise distinct and below the AUTOINCREMENT counter;
usernames are pairwise distinct (the UNIQUE constraint). -/
structure WF (db : DB) : Prop where
  users_asc : db.users.Pairwise (fun a b => a.created_at < b.created_at)
  posts_asc : db.posts.Pairwise (fun a b => a.created_at < b.created_at)
  users_clock : ∀ u ∈ db.users, u.created_at < db.clock
  posts_clock : ∀ p ∈ db.posts, p.created_at < db.clock
  users_id_bound : ∀ u ∈ db.users, u.id < db.nextUserId
  users_id_pos : ∀ u ∈ db.users, 0 < u.id
  next_user_pos : 0 < db.nextUserId
  users_id_nodup : db.users.Pairwise (fun a b => a.id ≠ b.id)
  usernames_nodup : db.users.Pairwise (fun a b => a.username ≠ b.username)

theorem seedDB_WF : WF seedDB := by
  constructor <;> decide

theorem WF_insertUser (db : DB) (u : String) (r : Option String) (hwf : WF db)
    (hfree : ∀ x ∈ db.users, x.username ≠ u) : WF (insertUser db u r) := by
  obtain ⟨h1, h2, h3, h4, h5, h5b, h6, h7, h8⟩ := hwf
  constructor
  · rw [insertUser, List.pairwise_append]
    refine ⟨h1, List.pairwise_singleton _ _, ?_⟩
    intro a ha b hb
    rw [List.mem_singleton.mp hb]
    exact h3 a ha
  · exact h2
  · intro x hx
    rcases List.mem_append.mp hx with hx' | hx'
    · exact Nat.lt_trans (h3 x hx') (Nat.lt_succ_self _)
    · rw [List.mem_singleton.mp hx']
      exact Nat.lt_succ_self _
  · intro p hp
    exact Nat.lt_trans (h4 p hp) (Nat.lt_succ_self _)
  · intro x hx
    rcases List.mem_append.mp hx with hx' | hx'
    · exact Nat.lt_trans (h5 x hx') (Nat.lt_succ_self _)
    · rw [List.mem_singleton.mp hx']
      exact Nat.lt_succ_self _
  · intro x hx
    rcases List.mem_append.mp hx with hx' | hx'
    · exact h5b x hx'
    · rw [List.mem_singleton.mp hx']
      exact h6
  · exact Nat.lt_trans h6 (Nat.lt_succ_self _)
  · rw [insertUser, List.pairwise_append]
    refine ⟨h7, List.pairwise_singleton _ _, ?_⟩
    intro a ha b hb
    rw [List.mem_singleton.mp hb]
    exact Nat.ne_of_lt (h5 a ha)
  · rw [insertUser, List.pairwise_append]
    refine ⟨h8, List.pairwise_singleton _ _, ?_⟩
    intro a ha b hb
    rw [List.mem_singleton.mp hb]
    exact hfree a ha

theorem WF_insertPost (db : DB) (t b : String) (uid : Nat) (hwf : WF db) :
    WF (insertPost db t b uid) := by
  obtain ⟨h1, h2, h3, h4, h5, h5b, h6, h7, h8⟩ := hwf
  constructor
  · exact h1
  · rw [insertPost, List.pairwise_append]
    refine ⟨h2, List.pairwise_singleton _ _, ?_⟩
    intro a ha c hc
    rw [List.mem_singleton.mp hc]
    exact h4 a ha
  · intro x hx
    exact Nat.lt_trans (h3 x hx) (Nat.lt_succ_self _)
  · intro p hp
    rcases List.mem_append.mp hp with hp' | hp'
    · exact Nat.lt_trans (h4 p hp') (Nat.lt_succ_self _)
    · rw [List.mem_singleton.mp hp']
      exact Nat.lt_succ_self _
  · exact h5
  · exact h5b
  · exact h6
  · exact h7
  · exact h8

/-! ### Unfolding and inversion lemmas for the create handlers -/

theorem create_user_some (db : DB) (d : UserData) (u : String)
    (hu : d.username = some (some u)) :
    create_user db d =
      if db.users.any (fun x => x.username == u) then
        (Resp.clientError 400 "Username already exists", db)
      else
        (Resp.ok (freshUser db u (d.role.getD (some "user")))
        , insertUser db u (d.role.getD (some "user"))) := by
  unfold create_user
  rw [hu]

theorem create_post_some (db : DB) (d : PostData) (t b : String) (uid : Nat)
    (ht : d.title = some (some t)) (hb : d.body = some (some b))
    (hu : d.user_id = some (some uid)) :
    create_post db d =
      match joinRow (insertPost db t b uid).users (freshPost db t b uid) with
      | some jp => (Resp.ok jp, insertPost db t b uid)
      | none => (Resp.serverFault, insertPost db t b uid) := by
  unfold create_post
  rw [ht, hb, hu]

/-- Users are untouched by a post insert. -/
theorem insertPost_users (db : DB) (t b : String) (uid : Nat) :
    (insertPost db t b uid).users = db.users := rfl

theorem create_user_ok_inv (db : DB) (d : UserData) (A : User) (dbA : DB)
    (h : create_user db d = (Resp.ok A, dbA)) :
    ∃ u, d.username = some (some u)
      ∧ (∀ x ∈ db.users, x.username ≠ u)
      ∧ A = freshUser db u (d.role.getD (some "user"))
      ∧ dbA = insertUser db u (d.role.getD (some "user")) := by
  rcases hu : d.username with _ | u
  · simp [create_user, hu] at h
  rcases u with _ | u
  · simp [create_user, hu] at h
  rw [create_user_some db d u hu] at h
  by_cases hc : db.users.any (fun x => x.username == u) = true
  · rw [if_pos hc] at h
    simp at h
  · rw [if_neg hc] at h
    simp only [Prod.mk.injEq, Resp.ok.injEq] at h
    refine ⟨u, rfl, ?_, h.1.symm, h.2.symm⟩
    intro x hx hcontra
    exact hc (List.any_eq_true.mpr ⟨x, hx, by simp [hcontra]⟩)

theorem create_post_ok_inv (db : DB) (d : PostData) (jp : JoinedPost) (dbA : DB)
    (h : create_post db d = (Resp.ok jp, dbA)) :
    ∃ t b uid, d.title = some (some t) ∧ d.body = some (some b)
      ∧ d.user_id = some (some uid)
      ∧ dbA = insertPost db t b uid
      ∧ joinRow db.users (freshPost db t b uid) = some jp := by
  rcases ht : d.title with _ | t
  · simp [create_post, ht] at h
  rcases hb : d.body with _ | b
  · simp [create_post, ht, hb] at h
  rcases hu : d.user_id with _ | uid
  · simp [create_post, ht, hb, hu] at h
  rcases t with _ | t
  · simp [create_post, ht, hb, hu] at h
  rcases b with _ | b
  · simp [create_post, ht, hb, hu] at h
  rcases uid with _ | uid
  · simp [create_post, ht, hb, hu] at h
  rw [create_post_some db d t b uid ht hb hu] at h
  rcases hj : joinRow (insertPost db t b uid).users (freshPost db t b uid)
    with _ | jp'
  · rw [hj] at h
    simp at h
  · rw [hj] at h
    simp only [Prod.mk.injEq, Resp.ok.injEq] at h
    rw [insertPost_users db t b uid] at hj
    rw [h.1] at hj
    exact ⟨t, b, uid, rfl, rfl, rfl, h.2.symm, hj⟩

/-- Handler-level invariant preservation for `POST /users`. -/
theorem WF_create_user (db : DB) (d : UserData) (hwf : WF db) :
    WF (create_user db d).2 := by
  rcases hu : d.username with _ | u
  · rw [create_user, hu]
    exact hwf
  rcases u with _ | u
  · rw [create_user, hu]
    exact hwf
  rw [create_user_some db d u hu]
  by_cases hc : db.users.any (fun x => x.username == u) = true
  · rw [if_pos hc]
    exact hwf
  · rw [if_neg hc]
    refine WF_insertUser db u _ hwf ?_
    intro x hx hcontra
    exact hc (List.any_eq_true.mpr ⟨x, hx, by simp [hcontra]⟩)

/-- Handler-level invariant preservation for `POST /posts`. -/
theorem WF_create_post (db : DB) (d : PostData) (hwf : WF db) :
    WF (create_post db d).2 := by
  rcases ht : d.title with _ | t
  · rw [create_post, ht]
    exact hwf
  rcases hb : d.body with _ | b
  · rw [create_post, ht, hb]
    exact hwf
  rcases hu : d.user_id with _ | uid
  · rw [create_post, ht, hb, hu]
    exact hwf
  rcases t with _ | t
  · rw [create_post, ht, hb, hu]
    exact hwf
  rcases b with _ | b
  · rw [create_post, ht, hb, hu]
    exact hwf
  rcases uid with _ | uid
  · rw [create_post, ht, hb, hu]
    exact hwf
  rw [create_post_some db d t b uid ht hb hu]
  rcases hj : joinRow (insertPost db t b uid).users (freshPost db t b uid)
    with _ | jp
  · exact WF_insertPost db t b uid hwf
  · exact WF_insertPost db t b uid hwf

/-! ### Claims -/

/-- C1: for every pair of create-user requests with the same username, the
second request returns HTTP 400 with message "Username already exists", the
store is unchanged by the failed request, and (when the name was free
beforehand) exactly one row with that username is persisted. -/
theorem c1_duplicate_username (db : DB) (d1 d2 : UserData) (u : String)
    (h1 : d1.username = some (some u)) (h2 : d2.username = some (some u)) :
    (create_user (create_user db d1).2 d2).1
        = Resp.clientError 400 "Username already exists"
  ∧ (create_user (create_user db d1).2 d2).2 = (create_user db d1).2
  ∧ ((∀ x ∈ db.users, x.username ≠ u) →
      ((create_user (create_user db d1).2 d2).2.users.countP
        (fun x => x.username == u)) = 1) := by
  by_cases hc : db.users.any (fun x => x.username == u) = true
  · have e1 : (create_user db d1).2 = db := by
      rw [create_user_some db d1 u h1, if_pos hc]
    have e2 : create_user db d2
        = (Resp.clientError 400 "Username already exists", db) := by
      rw [create_user_some db d2 u h2, if_pos hc]
    rw [e1, e2]
    refine ⟨rfl, rfl, ?_⟩
    intro hfresh
    rcases List.any_eq_true.mp hc with ⟨x, hx, hbx⟩
    exact absurd (by simpa using hbx) (hfresh x hx)
  · have e1 : (create_user db d1).2
        = insertUser db u (d1.role.getD (some "user")) := by
      rw [create_user_some db d1 u h1, if_neg hc]
    have hany : (insertUser db u (d1.role.getD (some "user"))).users.any
        (fun x => x.username == u) = true := by
      apply List.any_eq_true.mpr
      exact ⟨freshUser db u (d1.role.getD (some "user")),
        by simp [insertUser], by simp [freshUser]⟩
    have e2 : create_user (insertUser db u (d1.role.getD (some "user"))) d2
        = (Resp.clientError 400 "Username already exists"
          , insertUser db u (d1.role.getD (some "user"))) := by
      rw [create_user_some _ d2 u h2, if_pos hany]
    rw [e1, e2]
    refine ⟨rfl, rfl, ?_⟩
    intro hfresh
    have h0 : db.users.countP (fun x => x.username == u) = 0 :=
      List.countP_eq_zero.mpr (fun x hx => by simp [hfresh x hx])
    simp [insertUser, List.countP_append, h0, freshUser, List.countP_cons]

/-- Witness for C1: creating "new_guy" twice on the seeded store. -/
theorem c1_duplicate_username_witness :
    (create_user (create_user seedDB ⟨some (some "new_guy"), none⟩).2
        ⟨some (some "new_guy"), none⟩).1
      = Resp.clientError 400 "Username already exists"
  ∧ (create_user (create_user seedDB ⟨some (some "new_guy"), none⟩).2
        ⟨some (some "new_guy"), none⟩).2
      = (create_user seedDB ⟨some (some "new_guy"), none⟩).2 :=
  ⟨(c1_duplicate_username seedDB ⟨some (some "new_guy"), none⟩
      ⟨some (some "new_guy"), none⟩ "new_guy" rfl rfl).1,
   (c1_duplicate_username seedDB ⟨some (some "new_guy"), none⟩
      ⟨some (some "new_guy"), none⟩ "new_guy" rfl rfl).2.1⟩

/-- C2: a create-user request with a fresh username succeeds; the returned
record's username and role match the input (role "user" when omitted), its
id is a positive integer not previously assigned to any user, and a
subsequent list-users call includes the new user. -/
theorem c2_create_user_success (db : DB) (d : UserData) (u : String)
    (hwf : WF db) (hu : d.username = some (some u))
    (hfree : ∀ x ∈ db.users, x.username ≠ u) :
    ∃ user db',
      create_user db d = (Resp.ok user, db')
      ∧ user.username = u
      ∧ user.role = d.role.getD (some "user")
      ∧ 0 < user.id
      ∧ (∀ x ∈ db.users, x.id ≠ user.id)
      ∧ ∃ l, (get_users db').1 = Resp.ok l ∧ user ∈ l := by
  have hc : ¬ (db.users.any (fun x => x.username == u) = true) := by
    intro hc
    rcases List.any_eq_true.mp hc with ⟨x, hx, hbx⟩
    exact hfree x hx (by simpa using hbx)
  refine ⟨freshUser db u (d.role.getD (some "user")),
    insertUser db u (d.role.getD (some "user")), ?_, rfl, rfl,
    hwf.next_user_pos, ?_, ?_⟩
  · rw [create_user_some db d u hu, if_neg hc]
  · intro x hx
    exact Nat.ne_of_lt (hwf.users_id_bound x hx)
  · refine ⟨_, rfl, ?_⟩
    rw [mem_sortDesc]
    simp [insertUser]

/-- Witness for C2: creating "new_guy" on the seeded store. -/
theorem c2_create_user_success_witness :
    ∃ user db',
      create_user seedDB ⟨some (some "new_guy"), none⟩ = (Resp.ok user, db')
      ∧ user.username = "new_guy"
      ∧ user.role = some "user"
      ∧ 0 < user.id
      ∧ (∀ x ∈ seedDB.users, x.id ≠ user.id)
      ∧ ∃ l, (get_users db').1 = Resp.ok l ∧ user ∈ l :=
  c2_create_user_success seedDB ⟨some (some "new_guy"), none⟩ "new_guy"
    seedDB_WF rfl (by decide)

/-- C3: with no store file the initializer creates exactly the literal seed
rows (3 users, 3 posts, 3 follow edges); with an existing store file it
performs no writes at all. -/
theorem c3_init_db :
    init_db none = seedDB
  ∧ (init_db none).users.map (fun u => (u.username, u.role))
      = [("juan_dev", some "user"), ("maria_admin", some "admin"),
         ("carlos_student", some "user")]
  ∧ (init_db none).posts.map (fun p => (p.title, p.body, p.user_id))
      = [("Mi primer post", "Hola mundo desde la API con SQLite!", 1),
         ("Segundo post", "Este proyecto está genial", 2),
         ("Aprendiendo FastAPI", "Es más fácil de lo que pensé", 3)]
  ∧ (init_db none).follows.map
      (fun f => (f.following_user_id, f.followed_user_id))
      = [(1, 2), (1, 3), (2, 3)]
  ∧ (∀ db, init_db (some db) = db) :=
  ⟨rfl, rfl, rfl, rfl, fun _ => rfl⟩

/-- Counterexample to C4 as stated: from the seeded store, a create-post
request with `user_id` 99 persists a fourth Post row (the foreign key is not
enforced), yet list-posts still returns only the 3 joined rows: not every
Post row is returned. -/
theorem c4_counterexample :
    (create_post seedDB
      ⟨some (some "t"), some (some "b"), some (some 99)⟩).2.posts.length = 4
  ∧ (get_posts (create_post seedDB
      ⟨some (some "t"), some (some "b"), some (some 99)⟩).2).1
      = Resp.ok ((seedDB.posts.filterMap (joinRow seedDB.users)).reverse)
  ∧ (seedDB.posts.filterMap (joinRow seedDB.users)).reverse.length = 3 := by
  refine ⟨rfl, ?_, rfl⟩
  decide

/-- C4 (amended): list-users returns every User row and list-posts returns
every Post row whose owning user exists, joined with that user's username;
both are ordered by creation timestamp descending, so inserting A and then B
and then listing yields B before A. -/
theorem c4_listing_order (db : DB) (hwf : WF db) :
    (get_users db).1 = Resp.ok db.users.reverse
  ∧ (get_posts db).1
      = Resp.ok ((db.posts.filterMap (joinRow db.users)).reverse)
  ∧ (∀ dA dB A dbA B dbB,
        create_user db dA = (Resp.ok A, dbA) →
        create_user dbA dB = (Resp.ok B, dbB) →
        (get_users dbB).1 = Resp.ok (B :: A :: db.users.reverse))
  ∧ (∀ dA dB jA dbA jB dbB,
        create_post db dA = (Resp.ok jA, dbA) →
        create_post dbA dB = (Resp.ok jB, dbB) →
        (get_posts dbB).1
          = Resp.ok (jB :: jA ::
              (db.posts.filterMap (joinRow db.users)).reverse)) := by
  refine ⟨?_, ?_, ?_, ?_⟩
  · show Resp.ok (sortDesc (fun u => u.created_at) db.users) = _
    rw [sortDesc_eq_reverse _ _ hwf.users_asc]
  · show Resp.ok (sortDesc (fun p => p.created_at)
      (db.posts.filterMap (joinRow db.users))) = _
    rw [sortDesc_eq_reverse _ _
      (pairwise_filterMap_joinRow db.users db.posts hwf.posts_asc)]
  · intro dA dB A dbA B dbB hA hB
    obtain ⟨u1, hu1, hfree1, hA1, hdbA⟩ := create_user_ok_inv db dA A dbA hA
    obtain ⟨u2, hu2, hfree2, hB1, hdbB⟩ := create_user_ok_inv dbA dB B dbB hB
    have wfB : WF dbB := by
      rw [hdbB]
      refine WF_insertUser dbA u2 _ ?_ hfree2
      rw [hdbA]
      exact WF_insertUser db u1 _ hwf hfree1
    have husersA : dbA.users = db.users ++ [A] := by
      rw [hdbA]
      show db.users ++ [freshUser db u1 (dA.role.getD (some "user"))] = _
      rw [← hA1]
    have husersB : dbB.users = (db.users ++ [A]) ++ [B] := by
      rw [hdbB]
      show dbA.users ++ [freshUser dbA u2 (dB.role.getD (some "user"))] = _
      rw [husersA, ← hB1]
    show Resp.ok (sortDesc (fun u => u.created_at) dbB.users) = _
    rw [sortDesc_eq_reverse _ _ wfB.users_asc, husersB]
    simp [List.reverse_append]
  · intro dA dB jA dbA jB dbB hA hB
    obtain ⟨t1, b1, uid1, ht1, hb1, hu1, hdbA, hjA⟩ :=
      create_post_ok_inv db dA jA dbA hA
    obtain ⟨t2, b2, uid2, ht2, hb2, hu2, hdbB, hjB⟩ :=
      create_post_ok_inv dbA dB jB dbB hB
    have wfA : WF dbA := by
      rw [hdbA]
      exact WF_insertPost db t1 b1 uid1 hwf
    have wfB : WF dbB := by
      rw [hdbB]
      exact WF_insertPost dbA t2 b2 uid2 wfA
    have husersA : dbA.users = db.users := by
      rw [hdbA, insertPost_users]
    have husersB : dbB.users = db.users := by
      rw [hdbB, insertPost_users, husersA]
    have hpostsA : dbA.posts = db.posts ++ [freshPost db t1 b1 uid1] := by
      rw [hdbA]
      rfl
    have hpostsB : dbB.posts
        = (db.posts ++ [freshPost db t1 b1 uid1])
          ++ [freshPost dbA t2 b2 uid2] := by
      rw [hdbB]
      show dbA.posts ++ [freshPost dbA t2 b2 uid2] = _
      rw [hpostsA]
    rw [husersA] at hjB
    show Resp.ok (sortDesc (fun p => p.created_at)
      (dbB.posts.filterMap (joinRow dbB.users))) = _
    rw [sortDesc_eq_reverse _ _
      (pairwise_filterMap_joinRow dbB.users dbB.posts wfB.posts_asc)]
    rw [husersB, hpostsB]
    simp [List.filterMap_append, List.filterMap_cons, hjA, hjB,
      List.reverse_append]

/-- Witness for C4 (amended) at the seeded store, also exercising the
user-insertion ordering scenario with "ana" then "bea". -/
theorem c4_listing_order_witness :
    (get_users seedDB).1 = Resp.ok seedDB.users.reverse
  ∧ (get_posts seedDB).1
      = Resp.ok ((seedDB.posts.filterMap (joinRow seedDB.users)).reverse)
  ∧ (get_users (insertUser (insertUser seedDB "ana" (some "user"))
        "bea" (some "user"))).1
      = Resp.ok (freshUser (insertUser seedDB "ana" (some "user"))
            "bea" (some "user")
          :: freshUser seedDB "ana" (some "user")
          :: seedDB.users.reverse) :=
  ⟨(c4_listing_order seedDB seedDB_WF).1,
   (c4_listing_order seedDB seedDB_WF).2.1,
   (c4_listing_order seedDB seedDB_WF).2.2.1
     ⟨some (some "ana"), none⟩ ⟨some (some "bea"), none⟩
     (freshUser seedDB "ana" (some "user"))
     (insertUser seedDB "ana" (some "user"))
     (freshUser (insertUser seedDB "ana" (some "user")) "bea" (some "user"))
     (insertUser (insertUser seedDB "ana" (some "user")) "bea" (some "user"))
     (by decide) (by decide)⟩

/-- C5: a create-post request whose user_id names an existing user persists
the new Post row and returns it flattened with exactly that user's
username. -/
theorem c5_create_post_joins_author (db : DB) (d : PostData) (t b : String)
    (uid : Nat) (user : User) (hwf : WF db)
    (ht : d.title = some (some t)) (hb : d.body = some (some b))
    (hu : d.user_id = some (some uid))
    (hmem : user ∈ db.users) (hid : user.id = uid) :
    create_post db d =
      (Resp.ok { id := db.nextPostId, title := t, body := b, user_id := uid
               , created_at := db.clock, username := user.username }
      , insertPost db t b uid) := by
  rw [create_post_some db d t b uid ht hb hu]
  have hfind : db.users.find?
      (fun x => x.id == (freshPost db t b uid).user_id) = some user :=
    find?_user_eq_of_mem db.users (freshPost db t b uid).user_id user
      hwf.users_id_nodup hmem hid
  have hj : joinRow (insertPost db t b uid).users (freshPost db t b uid)
      = some { id := db.nextPostId, title := t, body := b, user_id := uid
             , created_at := db.clock, username := user.username } := by
    rw [insertPost_users]
    unfold joinRow
    rw [hfind]
    rfl
  rw [hj]

/-- Witness for C5: posting as user 2 ("maria_admin") on the seeded store. -/
theorem c5_create_post_joins_author_witness :
    create_post seedDB
      ⟨some (some "Nuevo"), some (some "Contenido"), some (some 2)⟩
      = (Resp.ok { id := 4, title := "Nuevo", body := "Contenido"
                 , user_id := 2, created_at := 9, username := "maria_admin" }
        , insertPost seedDB "Nuevo" "Contenido" 2) :=
  c5_create_post_joins_author seedDB
    ⟨some (some "Nuevo"), some (some "Contenido"), some (some 2)⟩
    "Nuevo" "Contenido" 2
    { id := 2, username := "maria_admin", role := some "admin", created_at := 1 }
    seedDB_WF rfl rfl rfl (by decide) rfl

/-- C6: a create-user body without "username", and a create-post body
missing "title", "body" or "user_id", make the handler fault server-side
(uncaught key lookup), never a 400 client error; in particular the
duplicate-username handler does not catch it. -/
theorem c6_missing_fields (db : DB) (d : UserData) (p : PostData) :
    (d.username = none → create_user db d = (Resp.serverFault, db))
  ∧ ((p.title = none ∨ p.body = none ∨ p.user_id = none) →
      create_post db p = (Resp.serverFault, db))
  ∧ (∀ s m, (Resp.serverFault : Resp User) ≠ Resp.clientError s m) := by
  refine ⟨?_, ?_, ?_⟩
  · intro h
    rw [create_user, h]
  · intro h
    rcases h with h | h | h
    · rw [create_post, h]
    · rcases ht : p.title with _ | t
      · rw [create_post, ht]
      · rw [create_post, ht, h]
    · rcases ht : p.title with _ | t
      · rw [create_post, ht]
      · rcases hbd : p.body with _ | b
        · rw [create_post, ht, hbd]
        · rw [create_post, ht, hbd, h]
  · intro s m hcontra
    exact Resp.noConfusion hcontra

/-- Witness for C6: bodies with the required keys absent, on the seeded
store. -/
theorem c6_missing_fields_witness :
    create_user seedDB ⟨none, none⟩ = (Resp.serverFault, seedDB)
  ∧ create_post seedDB ⟨none, some (some "b"), some (some 1)⟩
      = (Resp.serverFault, seedDB) :=
  ⟨(c6_missing_fields seedDB ⟨none, none⟩
      ⟨none, some (some "b"), some (some 1)⟩).1 rfl,
   (c6_missing_fields seedDB ⟨none, none⟩
      ⟨none, some (some "b"), some (some 1)⟩).2.1 (Or.inl rfl)⟩

/-- Counterexample to C7 as stated: the store enforces neither non-emptiness
nor the declared 50-character bound of usernames.  Creating "" succeeds and
persists an empty username; creating a 51-character username succeeds and
persists it. -/
theorem c7_counterexample :
    (create_user seedDB ⟨some (some ""), none⟩).1
      = Resp.ok { id := 4, username := "", role := some "user", created_at := 9 }
  ∧ ((create_user seedDB ⟨some (some ""), none⟩).2.users.any
      (fun x => x.username == "")) = true
  ∧ ((create_user seedDB ⟨some (some "aaaaaaaaaaaaaaaaaaaaaaaaaaaaaaaaaaaaaaaaaaaaaaaaaaa"), none⟩).2.users.any
      (fun x => 50 < x.username.length)) = true := by
  refine ⟨?_, ?_, ?_⟩ <;> decide

/-- No two persisted User rows share a username. -/
def UsernamesDistinct (db : DB) : Prop :=
  db.users.Pairwise (fun a b => a.username ≠ b.username)

/-- C7 (amended): every persisted User row has a (non-NULL) username and no
two User rows share a username; this holds after seeding and is preserved by
every request handler.  (Non-nullness is enforced by the NOT NULL gate in
`create_user`, under which `User.username` is a plain `String`; the declared
50-character bound and non-emptiness are not enforced by the store.) -/
theorem c7_username_unique :
    UsernamesDistinct seedDB
  ∧ (∀ db d, UsernamesDistinct db → UsernamesDistinct (create_user db d).2)
  ∧ (∀ db d, UsernamesDistinct db → UsernamesDistinct (create_post db d).2)
  ∧ (∀ db, UsernamesDistinct db →
      UsernamesDistinct (get_users db).2
      ∧ UsernamesDistinct (get_posts db).2
      ∧ UsernamesDistinct (home db).2) := by
  refine ⟨?_, ?_, ?_, fun db h => ⟨h, h, h⟩⟩
  · show seedDB.users.Pairwise (fun a b => a.username ≠ b.username)
    decide
  · intro db d hD
    rcases hu : d.username with _ | u
    · rw [create_user, hu]
      exact hD
    rcases u with _ | u
    · rw [create_user, hu]
      exact hD
    rw [create_user_some db d u hu]
    by_cases hc : db.users.any (fun x => x.username == u) = true
    · rw [if_pos hc]
      exact hD
    · rw [if_neg hc]
      show (db.users ++ [freshUser db u (d.role.getD (some "user"))]).Pairwise _
      rw [List.pairwise_append]
      refine ⟨hD, List.pairwise_singleton _ _, ?_⟩
      intro a ha b hb
      rw [List.mem_singleton.mp hb]
      intro hcontra
      exact hc (List.any_eq_true.mpr ⟨a, ha, by simp [freshUser, hcontra]⟩)
  · intro db d hD
    rcases ht : d.title with _ | t
    · rw [create_post, ht]
      exact hD
    rcases hbd : d.body with _ | b
    · rw [create_post, ht, hbd]
      exact hD
    rcases hui : d.user_id with _ | uid
    · rw [create_post, ht, hbd, hui]
      exact hD
    rcases t with _ | t
    · rw [create_post, ht, hbd, hui]
      exact hD
    rcases b with _ | b
    · rw [create_post, ht, hbd, hui]
      exact hD
    rcases uid with _ | uid
    · rw [create_post, ht, hbd, hui]
      exact hD
    rw [create_post_some db d t b uid ht hbd hui]
    rcases hj : joinRow (insertPost db t b uid).users (freshPost db t b uid)
      with _ | jp
    · exact hD
    · exact hD

/-- Witness for C7 (amended): the invariant after creating "zoe" on the
seeded store. -/
theorem c7_username_unique_witness :
    UsernamesDistinct (create_user seedDB ⟨some (some "zoe"), none⟩).2 :=
  c7_username_unique.2.1 seedDB ⟨some (some "zoe"), none⟩
    c7_username_unique.1

/-- C8: a create-post request whose user_id matches no user is not
existence-checked by the application layer and the store does not enforce
the declared foreign key: the Post row is persisted even though the request
ends in a server fault, not a created record. -/
theorem c8_dangling_post_persisted (db : DB) (d : PostData) (t b : String)
    (uid : Nat) (ht : d.title = some (some t)) (hb : d.body = some (some b))
    (hu : d.user_id = some (some uid))
    (hmiss : ∀ u ∈ db.users, u.id ≠ uid) :
    create_post db d = (Resp.serverFault, insertPost db t b uid)
  ∧ freshPost db t b uid ∈ (create_post db d).2.posts := by
  have hfind : db.users.find?
      (fun x => x.id == (freshPost db t b uid).user_id) = none := by
    rw [List.find?_eq_none]
    intro x hx
    simp [freshPost, hmiss x hx]
  have hj : joinRow (insertPost db t b uid).users (freshPost db t b uid)
      = none := by
    rw [insertPost_users]
    unfold joinRow
    rw [hfind]
    rfl
  have he : create_post db d = (Resp.serverFault, insertPost db t b uid) := by
    rw [create_post_some db d t b uid ht hb hu, hj]
  refine ⟨he, ?_⟩
  rw [he]
  simp [insertPost]

/-- Witness for C8: posting with user_id 99 on the seeded store. -/
theorem c8_dangling_post_persisted_witness :
    create_post seedDB ⟨some (some "x"), some (some "y"), some (some 99)⟩
      = (Resp.serverFault, insertPost seedDB "x" "y" 99)
  ∧ freshPost seedDB "x" "y" 99
      ∈ (create_post seedDB
          ⟨some (some "x"), some (some "y"), some (some 99)⟩).2.posts :=
  c8_dangling_post_persisted seedDB
    ⟨some (some "x"), some (some "y"), some (some 99)⟩
    "x" "y" 99 rfl rfl rfl (by decide)

/-- C9: no request handler writes the follows table: after any of the five
handlers the follow edges equal those before. -/
theorem c9_follows_frame (db : DB) (d : UserData) (p : PostData) :
    (get_users db).2.follows = db.follows
  ∧ (create_user db d).2.follows = db.follows
  ∧ (get_posts db).2.follows = db.follows
  ∧ (create_post db p).2.follows = db.follows
  ∧ (home db).2.follows = db.follows := by
  refine ⟨rfl, ?_, rfl, ?_, rfl⟩
  · rcases hu : d.username with _ | u
    · rw [create_user, hu]
    rcases u with _ | u
    · rw [create_user, hu]
    rw [create_user_some db d u hu]
    by_cases hc : db.users.any (fun x => x.username == u) = true
    · rw [if_pos hc]
    · rw [if_neg hc]
      rfl
  · rcases ht : p.title with _ | t
    · rw [create_post, ht]
    rcases hbd : p.body with _ | b
    · rw [create_post, ht, hbd]
    rcases hui : p.user_id with _ | uid
    · rw [create_post, ht, hbd, hui]
    rcases t with _ | t
    · rw [create_post, ht, hbd, hui]
    rcases b with _ | b
    · rw [create_post, ht, hbd, hui]
    rcases uid with _ | uid
    · rw [create_post, ht, hbd, hui]
    rw [create_post_some db p t b uid ht hbd hui]
    rcases hj : joinRow (insertPost db t b uid).users (freshPost db t b uid)
      with _ | jp
    · rfl
    · rfl

/-- C10: every integrity violation in create-user — NULL username as well as
duplicate username — is answered with HTTP 400 "Username already exists" and
leaves the store unchanged. -/
theorem c10_integrity_as_400 (db : DB) (d : UserData) :
    (d.username = some none →
      create_user db d = (Resp.clientError 400 "Username already exists", db))
  ∧ (∀ u, d.username = some (some u) → (∃ x ∈ db.users, x.username = u) →
      create_user db d
        = (Resp.clientError 400 "Username already exists", db)) := by
  constructor
  · intro h
    rw [create_user, h]
  · intro u hu hex
    rcases hex with ⟨x, hx, hxu⟩
    have hc : db.users.any (fun y => y.username == u) = true :=
      List.any_eq_true.mpr ⟨x, hx, by simp [hxu]⟩
    rw [create_user_some db d u hu, if_pos hc]

/-- Witness for C10: a body mapping "username" to null, on the seeded store
where no duplicate exists. -/
theorem c10_integrity_as_400_witness :
    create_user seedDB ⟨some none, some (some "admin")⟩
      = (Resp.clientError 400 "Username already exists", seedDB) :=
  (c10_integrity_as_400 seedDB ⟨some none, some (some "admin")⟩).1 rfl
